import Mathlib

/-
Verification of the e-commerce data pipeline (event generator + batch loader).

The embedding follows src/loader.py and src/event_generator.py.  JSON documents
are modelled by `JValue`; the database timestamp parser `datetime.fromisoformat`
is a parameter `fromiso : String → Option Nat` (it either yields a parsed
date-time value, represented abstractly as a `Nat`, or fails); the staging
store's acceptance of a row (`cursor.execute` succeeding or raising) is a
parameter `accepts : Row → Bool`.  Side effects on the connection (successful
inserts buffered on the cursor, the per-file commit, opening files, closing the
connection) are recorded as an explicit `Action` trace.
-/

namespace ECommerce

/-- A JSON value, as produced by Python's `json.load`. -/
inductive JValue where
  | null
  | bool (b : Bool)
  | int (n : Int)
  | float (q : Rat)
  | str (s : String)
  | arr (xs : List JValue)
  | obj (fields : List (String × JValue))

/-- First-match lookup of a key in a JSON object's field list (Python dict
lookup; parsed JSON objects have distinct keys). -/
def lookupField : List (String × JValue) → String → Option JValue
  | [], _ => none
  | (k, v) :: rest, key => if k = key then some v else lookupField rest key

/-- Python `dict.get(key)`: the value when present, `None` (mapped to SQL NULL,
i.e. `JValue.null`) when absent. -/
def getField (fs : List (String × JValue)) (k : String) : JValue :=
  (lookupField fs k).getD .null

/-- Python's `str.endswith(suffix)`. -/
def endswith (s suffix : String) : Bool :=
  suffix.data.isSuffixOf s.data

/-- The flat staging row built by `insert_event` (the `values` tuple of
loader.py lines 60-83).  `timestamp` is the parsed date-time value; every other
column holds the JSON value passed to the insert, `JValue.null` for SQL NULL. -/
structure Row where
  event_id : JValue
  event_type : JValue
  user_id : JValue
  session_id : JValue
  timestamp : Nat
  page_url : JValue
  device : JValue
  browser : JValue
  product_id : JValue
  product_name : JValue
  price : JValue
  quantity : JValue
  order_id : JValue
  total_amount : JValue
  items_count : JValue
  payment_method : JValue
  shipping_city : JValue
  shipping_state : JValue
  shipping_zip : JValue
  rating : JValue
  review_text : JValue
  verified_purchase : JValue

/-- The ways a single record can fail inside `insert_event` (all are caught as
`Exception` by the loop in `load_json_file`). -/
inductive RowError where
  | recordNotDict
  | missingTimestamp
  | timestampNotString
  | unparseableTimestamp
  | shippingNotDict
  | storeRejected

/-- `event.get('shipping_address', {})` followed by `.get` calls on the result:
absent means the empty dict, a present dict is used as is, and a present
non-dict value makes the subsequent `.get` raise. -/
def shippingOf (fs : List (String × JValue)) : Except RowError (List (String × JValue)) :=
  match lookupField fs "shipping_address" with
  | none => .ok []
  | some (.obj sfs) => .ok sfs
  | some _ => .error .shippingNotDict

/-- Lines 36-83 of loader.py: `timestamp = datetime.fromisoformat(event['timestamp'])`
(KeyError when the key is absent, TypeError when the value is not a string,
ValueError when unparseable), then the `values` tuple via `event.get` /
`shipping.get`.  A non-dict record raises at the subscript `event['timestamp']`. -/
def insert_event_values (fromiso : String → Option Nat) (event : JValue) :
    Except RowError Row :=
  match event with
  | .obj fs =>
    match lookupField fs "timestamp" with
    | none => .error .missingTimestamp
    | some (.str s) =>
      match fromiso s with
      | none => .error .unparseableTimestamp
      | some ts =>
        match shippingOf fs with
        | .error e => .error e
        | .ok sfs =>
          .ok { event_id := getField fs "event_id"
                event_type := getField fs "event_type"
                user_id := getField fs "user_id"
                session_id := getField fs "session_id"
                timestamp := ts
                page_url := getField fs "page_url"
                device := getField fs "device"
                browser := getField fs "browser"
                product_id := getField fs "product_id"
                product_name := getField fs "product_name"
                price := getField fs "price"
                quantity := getField fs "quantity"
                order_id := getField fs "order_id"
                total_amount := getField fs "total_amount"
                items_count := getField fs "items_count"
                payment_method := getField fs "payment_method"
                shipping_city := getField sfs "city"
                shipping_state := getField sfs "state"
                shipping_zip := getField sfs "zip"
                rating := getField fs "rating"
                review_text := getField fs "review_text"
                verified_purchase := getField fs "verified_purchase" }
    | some _ => .error .timestampNotString
  | _ => .error .recordNotDict

/-- `insert_event(cursor, event)`: build the values and run `cursor.execute`,
which raises when the store rejects the row.  On success the buffered row is
returned. -/
def insert_event (fromiso : String → Option Nat) (accepts : Row → Bool)
    (event : JValue) : Except RowError Row :=
  match insert_event_values fromiso event with
  | .error e => .error e
  | .ok r => if accepts r then .ok r else .error .storeRejected

/-- Observable side effects on the store connection and the filesystem. -/
inductive Action where
  | connect
  | openFile (name : String)
  | insertRow (r : Row)
  | commit
  | closeConn

/-- Whether an action belongs to per-file processing (as opposed to the
connection's acquire/release lifecycle). -/
def fileAction : Action → Bool
  | .connect => false
  | .closeConn => false
  | _ => true

/-- The file name opened, when the action is a file open. -/
def openFileName : Action → Option String
  | .openFile n => some n
  | _ => none

/-- The names of the files opened during a trace, in order. -/
def openedFiles (tr : List Action) : List String :=
  tr.filterMap openFileName

/-- The loop of loader.py lines 103-113: `for idx, event in enumerate(events, 1)`,
`try: insert_event ... success_count += 1 except Exception as e: error_count += 1`
plus the printed diagnostic `(idx, e)`.  Returns (success_count, error_count,
diagnostics, cursor actions). -/
def processEvents (fromiso : String → Option Nat) (accepts : Row → Bool) :
    List JValue → Nat → Nat × Nat × List (Nat × RowError) × List Action
  | [], _ => (0, 0, [], [])
  | ev :: rest, idx =>
    let (s, e, d, tr) := processEvents fromiso accepts rest (idx + 1)
    match insert_event fromiso accepts ev with
    | .ok r => (s + 1, e, d, .insertRow r :: tr)
    | .error er => (s, e + 1, (idx, er) :: d, tr)

/-- A file-level failure of `load_json_file`: `json.load` raising on an invalid
document, or `len(events)` raising `TypeError` on a top-level value with no
length. -/
inductive FileError where
  | invalidJson
  | noLength

/-- `len(events)` / `enumerate(events)` on the value returned by `json.load`:
lists iterate their elements, dicts iterate their keys, strings iterate their
characters, and every other value raises `TypeError` at `len`. -/
def pyIterate : JValue → Option (List JValue)
  | .arr xs => some xs
  | .obj fs => some (fs.map (fun p => JValue.str p.1))
  | .str s => some (s.toList.map (fun c => JValue.str (String.singleton c)))
  | _ => none

/-- `load_json_file(filepath, connection)` given the file's parsed content
(`none` when the text is not valid JSON, so `json.load` raises): reads the
document, runs the per-record loop, then `connection.commit()` once, and
returns `(success_count, error_count)` together with the diagnostics and the
connection's action trace. -/
def load_json_file (fromiso : String → Option Nat) (accepts : Row → Bool)
    (content : Option JValue) :
    Except FileError (Nat × Nat × List (Nat × RowError) × List Action) :=
  match content with
  | none => .error .invalidJson
  | some v =>
    match pyIterate v with
    | none => .error .noLength
    | some records =>
      let (s, e, d, tr) := processEvents fromiso accepts records 1
      .ok (s, e, d, tr ++ [Action.commit])

/-- The file loop of loader.py lines 150-154: each file is opened and loaded in
turn; a file-level error is not caught, so it stops the loop.  Returns the
propagated error (if any), the running totals, the per-file tallies in
processing order, and the accumulated trace. -/
def loadFilesLoop (fromiso : String → Option Nat) (accepts : Row → Bool) :
    List (String × Option JValue) →
    Option FileError × Nat × Nat × List (String × Nat × Nat) × List Action
  | [] => (none, 0, 0, [], [])
  | (name, content) :: rest =>
    match load_json_file fromiso accepts content with
    | .error e => (some e, 0, 0, [], [Action.openFile name])
    | .ok (s, e, _, tr) =>
      let (ab, ts, te, pf, tr2) := loadFilesLoop fromiso accepts rest
      (ab, s + ts, e + te, (name, s, e) :: pf, (Action.openFile name :: tr) ++ tr2)

/-- The observable outcome of one `load_all_events` run: the uncaught exception
if one propagated, the aggregate totals reported by the summary (absent when
the run returned early or aborted), the per-file tallies in processing order,
and the connection/file action trace. -/
structure RunResult where
  aborted : Option FileError
  totals : Option (Nat × Nat)
  perFile : List (String × Nat × Nat)
  trace : List Action

/-- `load_all_events(events_dir)`: `get_db_connection()` (which catches its own
failure and returns `None`, modelled by `connectOk = false`); on `None` the
function returns with no exception.  Otherwise the `.json` entries of
`os.listdir` (given as `listing`, in listdir order) are processed in turn; if
none, the connection is closed and the function returns.  A file-level error
propagates uncaught (no close); on normal completion the connection is closed
and the summary totals are reported. -/
def load_all_events (fromiso : String → Option Nat) (accepts : Row → Bool)
    (connectOk : Bool) (listing : List (String × Option JValue)) : RunResult :=
  if connectOk then
    let jsonFiles := listing.filter (fun p => endswith p.1 ".json")
    match jsonFiles with
    | [] => { aborted := none, totals := none, perFile := []
              trace := [Action.connect, Action.closeConn] }
    | _ :: _ =>
      let (ab, ts, te, pf, tr) := loadFilesLoop fromiso accepts jsonFiles
      match ab with
      | some e => { aborted := some e, totals := none, perFile := pf
                    trace := Action.connect :: tr }
      | none => { aborted := none, totals := some (ts, te), perFile := pf
                  trace := (Action.connect :: tr) ++ [Action.closeConn] }
  else
    { aborted := none, totals := none, perFile := [], trace := [] }

/- ----------------------------------------------------------------- -/
/- Event generator (src/event_generator.py)                           -/
/- ----------------------------------------------------------------- -/

/-- A page-view event as built by `generate_page_view` (the sampled values are
parameters). -/
structure PageView where
  event_id : String
  user_id : Int
  session_id : String
  timestamp : String
  page_url : String
  device : String
  browser : String

/-- An add-to-cart event as built by `generate_add_to_cart`. -/
structure AddToCart where
  event_id : String
  user_id : Int
  session_id : String
  timestamp : String
  product_id : Int
  product_name : String
  price : Rat
  quantity : Int

/-- A purchase event as built by `generate_purchase`. -/
structure Purchase where
  event_id : String
  order_id : String
  user_id : Int
  timestamp : String
  total_amount : Rat
  items_count : Int
  payment_method : String
  city : String
  state : String
  zip : String

/-- A product-review event as built by `generate_product_review`. -/
structure ProductReview where
  event_id : String
  user_id : Int
  product_id : Int
  timestamp : String
  rating : Int
  review_text : String
  verified_purchase : Bool

/-- The Event union: the four variants the generator produces. -/
inductive Event where
  | page_view (e : PageView)
  | add_to_cart (e : AddToCart)
  | purchase (e : Purchase)
  | product_review (e : ProductReview)

/-- The JSON record `generate_page_view` returns (field order as in source). -/
def PageView.toJson (e : PageView) : JValue :=
  .obj [("event_type", .str "page_view"),
        ("event_id", .str e.event_id),
        ("user_id", .int e.user_id),
        ("session_id", .str e.session_id),
        ("timestamp", .str e.timestamp),
        ("page_url", .str e.page_url),
        ("device", .str e.device),
        ("browser", .str e.browser)]

/-- The JSON record `generate_add_to_cart` returns. -/
def AddToCart.toJson (e : AddToCart) : JValue :=
  .obj [("event_type", .str "add_to_cart"),
        ("event_id", .str e.event_id),
        ("user_id", .int e.user_id),
        ("session_id", .str e.session_id),
        ("timestamp", .str e.timestamp),
        ("product_id", .int e.product_id),
        ("product_name", .str e.product_name),
        ("price", .float e.price),
        ("quantity", .int e.quantity)]

/-- The JSON record `generate_purchase` returns, with the nested
`shipping_address` object. -/
def Purchase.toJson (e : Purchase) : JValue :=
  .obj [("event_type", .str "purchase"),
        ("event_id", .str e.event_id),
        ("order_id", .str e.order_id),
        ("user_id", .int e.user_id),
        ("timestamp", .str e.timestamp),
        ("total_amount", .float e.total_amount),
        ("items_count", .int e.items_count),
        ("payment_method", .str e.payment_method),
        ("shipping_address", .obj [("city", .str e.city),
                                   ("state", .str e.state),
                                   ("zip", .str e.zip)])]

/-- The JSON record `generate_product_review` returns. -/
def ProductReview.toJson (e : ProductReview) : JValue :=
  .obj [("event_type", .str "product_review"),
        ("event_id", .str e.event_id),
        ("user_id", .int e.user_id),
        ("product_id", .int e.product_id),
        ("timestamp", .str e.timestamp),
        ("rating", .int e.rating),
        ("review_text", .str e.review_text),
        ("verified_purchase", .bool e.verified_purchase)]

/-- Serialization of one event. -/
def Event.toJson : Event → JValue
  | .page_view e => e.toJson
  | .add_to_cart e => e.toJson
  | .purchase e => e.toJson
  | .product_review e => e.toJson

/-- The `timestamp` field of an event (every variant carries one). -/
def Event.timestamp : Event → String
  | .page_view e => e.timestamp
  | .add_to_cart e => e.timestamp
  | .purchase e => e.timestamp
  | .product_review e => e.timestamp

/-- `save_events(events)`: `json.dump(events, f)` writes the batch as one JSON
array; the file's parsed content is that array (the textual round-trip through
`json.dump`/`json.load` is the identity on these values). -/
def save_events (events : List Event) : Option JValue :=
  some (.arr (events.map Event.toJson))

/- ----------------------------------------------------------------- -/
/- Helper lemmas                                                      -/
/- ----------------------------------------------------------------- -/

/-- Closed form of the per-record loop: the success count, the failure count,
the diagnostics (1-based index and error for each failing record), and the
trace of buffered inserts. -/
theorem processEvents_eq (fromiso : String → Option Nat) (accepts : Row → Bool)
    (xs : List JValue) (idx : Nat) :
    processEvents fromiso accepts xs idx =
      (xs.countP (fun ev => (insert_event fromiso accepts ev).toOption.isSome),
       xs.countP (fun ev => !(insert_event fromiso accepts ev).toOption.isSome),
       (List.enumFrom idx xs).filterMap (fun p =>
         match insert_event fromiso accepts p.2 with
         | .error er => some (p.1, er)
         | .ok _ => none),
       xs.filterMap (fun ev =>
         (insert_event fromiso accepts ev).toOption.map Action.insertRow)) := by
  induction xs generalizing idx with
  | nil => rfl
  | cons ev rest ih =>
    simp only [processEvents, ih (idx + 1), List.enumFrom, List.filterMap_cons,
      List.countP_cons]
    cases h : insert_event fromiso accepts ev with
    | ok r => simp [h, Except.toOption]
    | error er => simp [h, Except.toOption]

/-- A boolean predicate and its negation partition a list's length. -/
theorem countP_add_countP_not (p : JValue → Bool) (l : List JValue) :
    l.countP p + l.countP (fun a => !p a) = l.length := by
  induction l with
  | nil => rfl
  | cons a l ih =>
    simp only [List.countP_cons, List.length_cons]
    cases h : p a <;> simp [h] <;> omega

/-- Every action in a successful `load_json_file` trace is per-file processing
(a buffered insert or the commit), never a connection lifecycle action. -/
theorem load_json_file_trace_fileActions (fromiso : String → Option Nat)
    (accepts : Row → Bool) (content : Option JValue) (s e : Nat)
    (d : List (Nat × RowError)) (tr : List Action)
    (h : load_json_file fromiso accepts content = .ok (s, e, d, tr)) :
    ∀ a ∈ tr, fileAction a = true := by
  intro a ha
  cases content with
  | none => simp [load_json_file] at h
  | some v =>
    cases hv : pyIterate v with
    | none => simp [load_json_file, hv] at h
    | some records =>
      simp only [load_json_file, hv, processEvents_eq, Except.ok.injEq,
        Prod.mk.injEq] at h
      obtain ⟨-, -, -, htr⟩ := h
      subst htr
      rcases List.mem_append.mp ha with hmem | hmem
      · rcases List.mem_filterMap.mp hmem with ⟨ev, -, hmap⟩
        rcases Option.map_eq_some'.mp hmap with ⟨r, -, rfl⟩
        rfl
      · have hc := List.mem_singleton.mp hmem
        subst hc
        rfl

/-- The file-loop trace never contains a connection acquire or release. -/
theorem loadFilesLoop_trace_shape (fromiso : String → Option Nat)
    (accepts : Row → Bool) (files : List (String × Option JValue)) :
    ∀ a ∈ (loadFilesLoop fromiso accepts files).2.2.2.2,
      a ≠ Action.connect ∧ a ≠ Action.closeConn := by
  induction files with
  | nil => intro a ha; simp [loadFilesLoop] at ha
  | cons f rest ih =>
    intro a ha
    rcases f with ⟨name, content⟩
    cases hl : load_json_file fromiso accepts content with
    | error e =>
      simp only [loadFilesLoop, hl] at ha
      have hc := List.mem_singleton.mp ha
      subst hc
      exact ⟨by simp, by simp⟩
    | ok q =>
      rcases q with ⟨s, e, d, tr⟩
      rcases hrec : loadFilesLoop fromiso accepts rest with ⟨ab, ts, te, pf, tr2⟩
      rw [hrec] at ih
      simp only [loadFilesLoop, hl, hrec] at ha
      rcases List.mem_append.mp ha with hmem | hmem
      · rcases List.mem_cons.mp hmem with rfl | hmem
        · exact ⟨by simp, by simp⟩
        · have hfa := load_json_file_trace_fileActions fromiso accepts content
            s e d tr hl a hmem
          cases a <;> simp_all [fileAction]
      · exact ih a hmem

/-- When every file in the list is a well-formed event array, the file loop
finishes with no error, per-file tallies in list order, and running totals
equal to the sums of the per-file tallies. -/
theorem loadFilesLoop_wf (fromiso : String → Option Nat) (accepts : Row → Bool)
    (files : List (String × Option JValue))
    (hwf : ∀ p ∈ files, ∃ xs, p.2 = some (JValue.arr xs)) :
    ∃ pf tr, loadFilesLoop fromiso accepts files =
      (none, (pf.map (fun q => q.2.1)).sum, (pf.map (fun q => q.2.2)).sum,
        pf, tr) ∧
      pf.map Prod.fst = files.map Prod.fst := by
  induction files with
  | nil => exact ⟨[], [], rfl, rfl⟩
  | cons f rest ih =>
    obtain ⟨xs, hxs⟩ := hwf f (by simp)
    obtain ⟨pf, tr, hloop, hnames⟩ := ih (fun p hp => hwf p (by simp [hp]))
    rcases f with ⟨name, content⟩
    simp only at hxs
    subst hxs
    obtain ⟨s0, e0, d0, tr0, hq⟩ : ∃ s0 e0 d0 tr0,
        load_json_file fromiso accepts (some (.arr xs)) = .ok (s0, e0, d0, tr0) := by
      rcases hp : processEvents fromiso accepts xs 1 with ⟨s0, e0, d0, tr0⟩
      exact ⟨s0, e0, d0, tr0 ++ [Action.commit],
        by simp [load_json_file, pyIterate, hp]⟩
    refine ⟨(name, s0, e0) :: pf, (Action.openFile name :: tr0) ++ tr, ?_,
      by simp [hnames]⟩
    simp [loadFilesLoop, hq, hloop]

/-- A successful `load_json_file` call opens no further file: its trace is
inserts and the commit only. -/
theorem load_json_file_trace_no_open (fromiso : String → Option Nat)
    (accepts : Row → Bool) (content : Option JValue) (s e : Nat)
    (d : List (Nat × RowError)) (tr : List Action)
    (h : load_json_file fromiso accepts content = .ok (s, e, d, tr)) :
    openedFiles tr = [] := by
  refine List.filterMap_eq_nil_iff.mpr ?_
  intro a ha
  cases content with
  | none => simp [load_json_file] at h
  | some v =>
    cases hv : pyIterate v with
    | none => simp [load_json_file, hv] at h
    | some records =>
      simp only [load_json_file, hv, processEvents_eq, Except.ok.injEq,
        Prod.mk.injEq] at h
      obtain ⟨-, -, -, htr⟩ := h
      subst htr
      rcases List.mem_append.mp ha with hmem | hmem
      · rcases List.mem_filterMap.mp hmem with ⟨ev, -, hmap⟩
        rcases Option.map_eq_some'.mp hmap with ⟨r, -, rfl⟩
        rfl
      · have hc := List.mem_singleton.mp hmem
        subst hc
        rfl

/-- When the files before a malformed one are all well-formed event arrays,
the file loop aborts at the malformed file: the propagated error is the JSON
failure, per-file tallies exist exactly for the preceding files, and the files
opened are exactly the preceding ones followed by the malformed one — nothing
after it. -/
theorem loadFilesLoop_aborts_at_malformed (fromiso : String → Option Nat)
    (accepts : Row → Bool) (pre post : List (String × Option JValue))
    (bad : String)
    (hpre : ∀ p ∈ pre, ∃ xs, p.2 = some (JValue.arr xs)) :
    ∃ ts te pf tr,
      loadFilesLoop fromiso accepts (pre ++ (bad, none) :: post) =
        (some FileError.invalidJson, ts, te, pf, tr) ∧
      pf.map Prod.fst = pre.map Prod.fst ∧
      openedFiles tr = pre.map Prod.fst ++ [bad] := by
  induction pre with
  | nil =>
    refine ⟨0, 0, [], [Action.openFile bad], ?_, rfl, rfl⟩
    simp [loadFilesLoop, load_json_file]
  | cons f pre ih =>
    obtain ⟨xs, hxs⟩ := hpre f (by simp)
    obtain ⟨ts, te, pf, tr, hloop, hpf, hopen⟩ :=
      ih (fun p hp => hpre p (by simp [hp]))
    rcases f with ⟨name, content⟩
    simp only at hxs
    subst hxs
    obtain ⟨s0, e0, d0, tr0, hq⟩ : ∃ s0 e0 d0 tr0,
        load_json_file fromiso accepts (some (.arr xs)) = .ok (s0, e0, d0, tr0) := by
      rcases hp : processEvents fromiso accepts xs 1 with ⟨s0, e0, d0, tr0⟩
      exact ⟨s0, e0, d0, tr0 ++ [Action.commit],
        by simp [load_json_file, pyIterate, hp]⟩
    have hno : openedFiles tr0 = [] :=
      load_json_file_trace_no_open fromiso accepts (some (.arr xs))
        s0 e0 d0 tr0 hq
    refine ⟨s0 + ts, e0 + te, (name, s0, e0) :: pf,
      (Action.openFile name :: tr0) ++ tr, ?_, ?_, ?_⟩
    · simp [loadFilesLoop, hq, hloop]
    · simp [hpf]
    · simp only [openedFiles, List.filterMap_append, List.filterMap_cons] at hno hopen ⊢
      simp [openFileName, hno, hopen]

/- ----------------------------------------------------------------- -/
/- Claim theorems                                                     -/
/- ----------------------------------------------------------------- -/

/-- Claim C1: for every batch file and every record in it, when mapping the
record or inserting its row fails, `load_json_file` increments the failure
count, records a diagnostic (1-based record index plus the error), and
continues with the next record; row- and record-level errors never propagate
past `load_json_file` (the result is `.ok`, and each record of the file
contributes to exactly one tally or diagnostic entry in order). -/
theorem load_file_isolates_row_failures (fromiso : String → Option Nat)
    (accepts : Row → Bool) (xs : List JValue) :
    load_json_file fromiso accepts (some (.arr xs)) =
      .ok (xs.countP (fun ev => (insert_event fromiso accepts ev).toOption.isSome),
           xs.countP (fun ev => !(insert_event fromiso accepts ev).toOption.isSome),
           (List.enumFrom 1 xs).filterMap (fun p =>
             match insert_event fromiso accepts p.2 with
             | .error er => some (p.1, er)
             | .ok _ => none),
           (xs.filterMap (fun ev =>
             (insert_event fromiso accepts ev).toOption.map Action.insertRow)) ++
             [Action.commit]) := by
  simp [load_json_file, pyIterate, processEvents_eq]

/-- Claim C5: for every well-formed batch file, `load_json_file` returns
tallies with `success_count + failure_count` equal to the number of records in
the file: no record is silently dropped. -/
theorem load_file_tallies_cover_all_records (fromiso : String → Option Nat)
    (accepts : Row → Bool) (xs : List JValue) :
    ∃ s e d tr,
      load_json_file fromiso accepts (some (.arr xs)) = .ok (s, e, d, tr) ∧
      s + e = xs.length := by
  refine ⟨xs.countP (fun ev => (insert_event fromiso accepts ev).toOption.isSome),
          xs.countP (fun ev => !(insert_event fromiso accepts ev).toOption.isSome),
          (List.enumFrom 1 xs).filterMap (fun p =>
            match insert_event fromiso accepts p.2 with
            | .error er => some (p.1, er)
            | .ok _ => none),
          (xs.filterMap (fun ev =>
            (insert_event fromiso accepts ev).toOption.map Action.insertRow)) ++
            [Action.commit], ?_, ?_⟩
  · simp [load_json_file, pyIterate, processEvents_eq]
  · exact countP_add_countP_not _ xs

/-- Claim C6: for every well-formed batch file, `load_json_file` commits
exactly once: the connection trace is the buffered inserts followed by a single
`commit` as its last action, so the commit happens after all records have been
attempted and never per record. -/
theorem load_file_commits_once_after_all (fromiso : String → Option Nat)
    (accepts : Row → Bool) (xs : List JValue) :
    ∃ s e d tr,
      load_json_file fromiso accepts (some (.arr xs)) =
        .ok (s, e, d, tr ++ [Action.commit]) ∧
      ∀ a ∈ tr, a ≠ Action.commit := by
  refine ⟨xs.countP (fun ev => (insert_event fromiso accepts ev).toOption.isSome),
    xs.countP (fun ev => !(insert_event fromiso accepts ev).toOption.isSome),
    (List.enumFrom 1 xs).filterMap (fun p =>
      match insert_event fromiso accepts p.2 with
      | .error er => some (p.1, er)
      | .ok _ => none),
    xs.filterMap (fun ev =>
      (insert_event fromiso accepts ev).toOption.map Action.insertRow), ?_, ?_⟩
  · simp [load_json_file, pyIterate, processEvents_eq]
  · intro a ha
    rcases List.mem_filterMap.mp ha with ⟨ev, _, hmap⟩
    rcases Option.map_eq_some'.mp hmap with ⟨r, _, rfl⟩
    simp

/-- Claim C7: for every event of the union, the row built for insertion maps
every field not defined for the event's variant to SQL NULL, and the
`shipping_address` subfields (city, state, zip) are read from the nested object
when the variant is `purchase` and are NULL otherwise. -/
theorem map_to_row_variant_nulls (fromiso : String → Option Nat) (e : Event)
    (d : Nat) (h : fromiso (Event.timestamp e) = some d) :
    ∃ row, insert_event_values fromiso (Event.toJson e) = .ok row ∧
      (match e with
       | .page_view _ =>
           row.product_id = .null ∧ row.product_name = .null ∧
           row.price = .null ∧ row.quantity = .null ∧ row.order_id = .null ∧
           row.total_amount = .null ∧ row.items_count = .null ∧
           row.payment_method = .null ∧ row.rating = .null ∧
           row.review_text = .null ∧ row.verified_purchase = .null
       | .add_to_cart _ =>
           row.page_url = .null ∧ row.device = .null ∧ row.browser = .null ∧
           row.order_id = .null ∧ row.total_amount = .null ∧
           row.items_count = .null ∧ row.payment_method = .null ∧
           row.rating = .null ∧ row.review_text = .null ∧
           row.verified_purchase = .null
       | .purchase _ =>
           row.session_id = .null ∧ row.page_url = .null ∧ row.device = .null ∧
           row.browser = .null ∧ row.product_id = .null ∧
           row.product_name = .null ∧ row.price = .null ∧
           row.quantity = .null ∧ row.rating = .null ∧
           row.review_text = .null ∧ row.verified_purchase = .null
       | .product_review _ =>
           row.session_id = .null ∧ row.page_url = .null ∧ row.device = .null ∧
           row.browser = .null ∧ row.product_name = .null ∧ row.price = .null ∧
           row.quantity = .null ∧ row.order_id = .null ∧
           row.total_amount = .null ∧ row.items_count = .null ∧
           row.payment_method = .null) ∧
      (match e with
       | .purchase p =>
           row.shipping_city = .str p.city ∧ row.shipping_state = .str p.state ∧
           row.shipping_zip = .str p.zip
       | _ =>
           row.shipping_city = .null ∧ row.shipping_state = .null ∧
           row.shipping_zip = .null) := by
  cases e with
  | page_view pv =>
    simp only [Event.toJson, Event.timestamp] at h ⊢
    simp [insert_event_values, PageView.toJson, lookupField, shippingOf,
      getField, h]
  | add_to_cart ac =>
    simp only [Event.toJson, Event.timestamp] at h ⊢
    simp [insert_event_values, AddToCart.toJson, lookupField, shippingOf,
      getField, h]
  | purchase p =>
    simp only [Event.toJson, Event.timestamp] at h ⊢
    simp [insert_event_values, Purchase.toJson, lookupField, shippingOf,
      getField, h]
  | product_review pr =>
    simp only [Event.toJson, Event.timestamp] at h ⊢
    simp [insert_event_values, ProductReview.toJson, lookupField, shippingOf,
      getField, h]

/-- Witness for C7 at a concrete purchase event and a concrete parser. -/
theorem map_to_row_variant_nulls_witness :
    ∃ row, insert_event_values (fun s => if s = "2025-01-01T00:00:00" then some 0 else none)
        (Event.toJson (.purchase { event_id := "e1", order_id := "o1", user_id := 7
                                   timestamp := "2025-01-01T00:00:00"
                                   total_amount := 42, items_count := 2
                                   payment_method := "paypal", city := "Springfield"
                                   state := "IL", zip := "62701" })) = .ok row ∧
      (row.session_id = .null ∧ row.page_url = .null ∧ row.device = .null ∧
       row.browser = .null ∧ row.product_id = .null ∧
       row.product_name = .null ∧ row.price = .null ∧
       row.quantity = .null ∧ row.rating = .null ∧
       row.review_text = .null ∧ row.verified_purchase = .null) ∧
      (row.shipping_city = .str "Springfield" ∧ row.shipping_state = .str "IL" ∧
       row.shipping_zip = .str "62701") :=
  map_to_row_variant_nulls
    (fun s => if s = "2025-01-01T00:00:00" then some 0 else none)
    (.purchase { event_id := "e1", order_id := "o1", user_id := 7
                 timestamp := "2025-01-01T00:00:00"
                 total_amount := 42, items_count := 2
                 payment_method := "paypal", city := "Springfield"
                 state := "IL", zip := "62701" }) 0 (by simp [Event.timestamp])

/-- Every serialized generator event whose timestamp the parser accepts maps to
a row. -/
theorem insert_event_values_event_ok (fromiso : String → Option Nat) (e : Event)
    (h : (fromiso (Event.timestamp e)).isSome = true) :
    ∃ row, insert_event_values fromiso (Event.toJson e) = .ok row := by
  obtain ⟨d, hd⟩ := Option.isSome_iff_exists.mp h
  cases e with
  | page_view pv =>
    simp only [Event.timestamp] at hd
    simp [insert_event_values, Event.toJson, PageView.toJson, lookupField,
      shippingOf, hd]
  | add_to_cart ac =>
    simp only [Event.timestamp] at hd
    simp [insert_event_values, Event.toJson, AddToCart.toJson, lookupField,
      shippingOf, hd]
  | purchase p =>
    simp only [Event.timestamp] at hd
    simp [insert_event_values, Event.toJson, Purchase.toJson, lookupField,
      shippingOf, hd]
  | product_review pr =>
    simp only [Event.timestamp] at hd
    simp [insert_event_values, Event.toJson, ProductReview.toJson, lookupField,
      shippingOf, hd]

/-- Claim C9: persisting a batch of generated events and loading the file back
yields `success_count = batch.length` and `failure_count = 0`, provided every
timestamp parses (as generated ISO timestamps do) and the store accepts every
row. -/
theorem save_load_round_trip (fromiso : String → Option Nat)
    (accepts : Row → Bool) (batch : List Event)
    (hts : ∀ e ∈ batch, (fromiso (Event.timestamp e)).isSome = true)
    (hacc : ∀ r, accepts r = true) :
    ∃ d tr, load_json_file fromiso accepts (save_events batch) =
      .ok (batch.length, 0, d, tr) := by
  have hok : ∀ ev ∈ batch.map Event.toJson,
      (insert_event fromiso accepts ev).toOption.isSome = true := by
    intro ev hev
    rcases List.mem_map.mp hev with ⟨e, he, rfl⟩
    rcases insert_event_values_event_ok fromiso e (hts e he) with ⟨row, hrow⟩
    simp [insert_event, hrow, hacc row, Except.toOption]
  have h1 : (batch.map Event.toJson).countP
      (fun ev => (insert_event fromiso accepts ev).toOption.isSome)
        = batch.length := by
    rw [List.countP_eq_length.mpr hok, List.length_map]
  have h2 : (batch.map Event.toJson).countP
      (fun ev => !(insert_event fromiso accepts ev).toOption.isSome) = 0 := by
    refine List.countP_eq_zero.mpr ?_
    intro ev hev
    simp [hok ev hev]
  refine ⟨(List.enumFrom 1 (batch.map Event.toJson)).filterMap (fun p =>
            match insert_event fromiso accepts p.2 with
            | .error er => some (p.1, er)
            | .ok _ => none),
          ((batch.map Event.toJson).filterMap (fun ev =>
            (insert_event fromiso accepts ev).toOption.map Action.insertRow)) ++
            [Action.commit], ?_⟩
  simp [save_events, load_json_file, pyIterate, processEvents_eq, h1, h2]
  intro a ha
  have hm := hok (Event.toJson a) (List.mem_map_of_mem _ ha)
  simpa [Option.isSome_iff_ne_none] using hm

/-- Witness for C9 at a one-event batch, a parser accepting everything, and a
store accepting every row. -/
theorem save_load_round_trip_witness :
    ∃ d tr, load_json_file (fun _ => some 0) (fun _ => true)
      (save_events [Event.page_view
        { event_id := "e", user_id := 1, session_id := "s", timestamp := "t"
          page_url := "/p", device := "mobile", browser := "Chrome" }]) =
      .ok (1, 0, d, tr) :=
  save_load_round_trip (fun _ => some 0) (fun _ => true)
    [Event.page_view
      { event_id := "e", user_id := 1, session_id := "s", timestamp := "t"
        page_url := "/p", device := "mobile", browser := "Chrome" }]
    (fun _ _ => rfl) (fun _ => rfl)

/-- Claim C10: a record lacking a `timestamp` field fails inside
`insert_event_values` before any insert is executed for it (no action is
contributed to the trace), and the record is counted in the failure tally with
its diagnostic; a record whose timestamp is present but unparseable is handled
the same way. -/
theorem missing_or_bad_timestamp_fails_before_insert
    (fromiso : String → Option Nat) (accepts : Row → Bool)
    (fs : List (String × JValue)) (xs : List JValue)
    (h : lookupField fs "timestamp" = none ∨
         ∃ s, lookupField fs "timestamp" = some (.str s) ∧ fromiso s = none) :
    ∃ er s e d tr,
      insert_event_values fromiso (.obj fs) = .error er ∧
      processEvents fromiso accepts xs 2 = (s, e, d, tr) ∧
      load_json_file fromiso accepts (some (.arr (.obj fs :: xs))) =
        .ok (s, e + 1, (1, er) :: d, tr ++ [Action.commit]) := by
  obtain ⟨er, hv⟩ : ∃ er, insert_event_values fromiso (.obj fs) = .error er := by
    rcases h with h | ⟨s, hs, hn⟩
    · exact ⟨.missingTimestamp, by simp [insert_event_values, h]⟩
    · exact ⟨.unparseableTimestamp, by simp [insert_event_values, hs, hn]⟩
  have hie : insert_event fromiso accepts (.obj fs) = .error er := by
    simp [insert_event, hv]
  rcases hp : processEvents fromiso accepts xs 2 with ⟨s, e, d, tr⟩
  refine ⟨er, s, e, d, tr, hv, rfl, ?_⟩
  simp [load_json_file, pyIterate, processEvents, hp, hie]

/-- Witness for C10 at a record with no fields at all (hence no timestamp). -/
theorem missing_or_bad_timestamp_witness :
    ∃ er s e d tr,
      insert_event_values (fun _ => some 0) (.obj []) = .error er ∧
      processEvents (fun _ => some 0) (fun _ => true) [] 2 = (s, e, d, tr) ∧
      load_json_file (fun _ => some 0) (fun _ => true)
          (some (.arr [.obj []])) =
        .ok (s, e + 1, (1, er) :: d, tr ++ [Action.commit]) :=
  missing_or_bad_timestamp_fails_before_insert (fun _ => some 0)
    (fun _ => true) [] [] (Or.inl rfl)

/-- Counterexample to C2: with the connection unavailable and a file present,
`load_all_events` ends with no propagated error at all — `get_db_connection`
catches its own failure and returns `None`, and `load_all_events` just returns.
No `ConnectionError` reaches the caller. -/
theorem connect_failure_no_error_cex :
    (load_all_events (fun _ => some 0) (fun _ => true) false
        [("events.json", some (.arr []))]).aborted = none ∧
    (load_all_events (fun _ => some 0) (fun _ => true) false
        [("events.json", some (.arr []))]).trace = [] :=
  ⟨rfl, rfl⟩

/-- Claim C2 (amended): if the store connection cannot be established,
`load_all_events` returns early before touching any file (the trace is empty),
but the failure is caught inside `get_db_connection` and converted to `None`:
no error propagates to the caller. -/
theorem connect_failure_returns_early (fromiso : String → Option Nat)
    (accepts : Row → Bool) (listing : List (String × Option JValue)) :
    load_all_events fromiso accepts false listing =
      { aborted := none, totals := none, perFile := [], trace := [] } := rfl

/-- Counterexample to C3: a malformed first file aborts the whole run — the
second file is never opened, because the loop in `load_all_events` does not
catch the error raised by `load_json_file`. -/
theorem malformed_file_stops_later_files_cex :
    (load_all_events (fun _ => some 0) (fun _ => true) true
        [("bad.json", none), ("good.json", some (.arr []))]).aborted =
      some FileError.invalidJson ∧
    Action.openFile "good.json" ∉
      (load_all_events (fun _ => some 0) (fun _ => true) true
        [("bad.json", none), ("good.json", some (.arr []))]).trace := by
  refine ⟨rfl, ?_⟩
  intro hmem
  have ht : (load_all_events (fun _ => some 0) (fun _ => true) true
      [("bad.json", none), ("good.json", some (.arr []))]).trace =
      [Action.connect, Action.openFile "bad.json"] := rfl
  rw [ht] at hmem
  simp at hmem

/-- Claim C3 (amended): a batch file whose contents are not parseable JSON
makes `load_json_file` raise for that file, wherever it sits in the listing,
and `load_all_events` does not catch the error: the run aborts with that
error, the files opened are exactly the (well-formed) files preceding the
malformed one followed by the malformed one itself — no subsequent file is
attempted — and per-file tallies exist only for the preceding files. -/
theorem malformed_file_aborts_rest_of_run (fromiso : String → Option Nat)
    (accepts : Row → Bool) (listing pre post : List (String × Option JValue))
    (bad : String)
    (hsplit : listing.filter (fun q => endswith q.1 ".json") =
      pre ++ (bad, none) :: post)
    (hpre : ∀ p ∈ pre, ∃ xs, p.2 = some (JValue.arr xs)) :
    (load_all_events fromiso accepts true listing).aborted =
      some FileError.invalidJson ∧
    openedFiles (load_all_events fromiso accepts true listing).trace =
      pre.map Prod.fst ++ [bad] ∧
    (load_all_events fromiso accepts true listing).perFile.map Prod.fst =
      pre.map Prod.fst := by
  obtain ⟨ts, te, pf, tr, hloop, hpf, hopen⟩ :=
    loadFilesLoop_aborts_at_malformed fromiso accepts pre post bad hpre
  cases hsh : pre ++ (bad, none) :: post with
  | nil => exact absurd hsh (by simp)
  | cons f0 rest0 =>
    rw [hsh] at hloop
    have hres : load_all_events fromiso accepts true listing =
        { aborted := some FileError.invalidJson, totals := none, perFile := pf
          trace := Action.connect :: tr } := by
      simp [load_all_events, hsplit, hsh, hloop]
    rw [hres]
    refine ⟨rfl, ?_, hpf⟩
    simp only [openedFiles, List.filterMap_cons] at hopen ⊢
    simpa [openFileName] using hopen

/-- Witness for the amended C3: a malformed file in the middle of the listing,
after one well-formed file and before another. -/
theorem malformed_file_aborts_rest_witness :
    (load_all_events (fun _ => some 0) (fun _ => true) true
        [("a.json", some (.arr [])), ("bad.json", none),
         ("c.json", some (.arr []))]).aborted = some FileError.invalidJson :=
  (malformed_file_aborts_rest_of_run (fun _ => some 0) (fun _ => true)
    [("a.json", some (.arr [])), ("bad.json", none), ("c.json", some (.arr []))]
    [("a.json", some (.arr []))] [("c.json", some (.arr []))] "bad.json"
    rfl
    (fun p hp => by
      rw [List.mem_singleton] at hp
      subst hp
      exact ⟨[], rfl⟩)).1

/-- Counterexample to C4: when a file-level error propagates out of
`load_json_file`, the connection is never closed — `load_all_events` has no
finally block, so `closeConn` is absent from the trace of the aborted run. -/
theorem connection_not_closed_on_error_cex :
    (load_all_events (fun _ => some 0) (fun _ => true) true
        [("bad.json", none)]).aborted = some FileError.invalidJson ∧
    Action.closeConn ∉
      (load_all_events (fun _ => some 0) (fun _ => true) true
        [("bad.json", none)]).trace := by
  refine ⟨rfl, ?_⟩
  intro hmem
  have ht : (load_all_events (fun _ => some 0) (fun _ => true) true
      [("bad.json", none)]).trace =
      [Action.connect, Action.openFile "bad.json"] := rfl
  rw [ht] at hmem
  simp at hmem

/-- Claim C4 (amended): on every run with a usable connection, the connection
is acquired exactly once (the trace starts with `connect`, which never recurs),
it is released exactly once, as the last action, on normal completion
(including the no-files path), but on a fatal file-level error the connection
is NOT released: no `closeConn` appears in the aborted run's trace. -/
theorem connection_lifecycle (fromiso : String → Option Nat)
    (accepts : Row → Bool) (listing : List (String × Option JValue)) :
    (∃ t, (load_all_events fromiso accepts true listing).trace =
        Action.connect :: t ∧ Action.connect ∉ t) ∧
    ((load_all_events fromiso accepts true listing).aborted = none →
      ∃ t, (load_all_events fromiso accepts true listing).trace =
        t ++ [Action.closeConn] ∧ Action.closeConn ∉ t) ∧
    ((load_all_events fromiso accepts true listing).aborted ≠ none →
      Action.closeConn ∉ (load_all_events fromiso accepts true listing).trace) := by
  simp only [load_all_events, if_true]
  cases hjf : listing.filter (fun p => endswith p.1 ".json") with
  | nil =>
    refine ⟨⟨[Action.closeConn], rfl, by simp⟩,
      fun _ => ⟨[Action.connect], rfl, by simp⟩,
      fun hne => absurd rfl hne⟩
  | cons f rest =>
    rcases hrec : loadFilesLoop fromiso accepts (f :: rest) with ⟨ab, ts, te, pf, tr⟩
    have hsh : ∀ a ∈ tr, a ≠ Action.connect ∧ a ≠ Action.closeConn := by
      have h0 := loadFilesLoop_trace_shape fromiso accepts (f :: rest)
      rw [hrec] at h0
      exact h0
    cases ab with
    | some e =>
      simp only [hrec]
      refine ⟨⟨tr, rfl, fun hmem => (hsh _ hmem).1 rfl⟩, ?_, ?_⟩
      · intro h
        simp at h
      · intro _ hmem
        rcases List.mem_cons.mp hmem with h | h
        · exact absurd h (by simp)
        · exact (hsh _ h).2 rfl
    | none =>
      simp only [hrec]
      refine ⟨⟨tr ++ [Action.closeConn], by simp, ?_⟩, ?_, ?_⟩
      · intro hmem
        rcases List.mem_append.mp hmem with h | h
        · exact (hsh _ h).1 rfl
        · simp at h
      · intro _
        refine ⟨Action.connect :: tr, by simp, ?_⟩
        intro hmem
        rcases List.mem_cons.mp hmem with h | h
        · exact absurd h (by simp)
        · exact (hsh _ h).2 rfl
      · intro hne
        exact absurd rfl hne

/-- Counterexample to C8: files are processed in directory-listing order, not
filename order — with the listing returning `b.json` before `a.json`, the
per-file report lists `b.json` first. -/
theorem listdir_order_not_filename_order_cex :
    (load_all_events (fun _ => some 0) (fun _ => true) true
        [("b.json", some (.arr [])), ("a.json", some (.arr []))]).perFile =
      [("b.json", 0, 0), ("a.json", 0, 0)] ∧
    (load_all_events (fun _ => some 0) (fun _ => true) true
        [("b.json", some (.arr [])), ("a.json", some (.arr []))]).perFile ≠
      [("a.json", 0, 0), ("b.json", 0, 0)] := by
  refine ⟨rfl, ?_⟩
  intro h
  have ht : (load_all_events (fun _ => some 0) (fun _ => true) true
      [("b.json", some (.arr [])), ("a.json", some (.arr []))]).perFile =
      [("b.json", 0, 0), ("a.json", 0, 0)] := rfl
  rw [ht] at h
  simp at h

/-- Claim C8 (amended): with a usable connection, `load_all_events` enumerates
exactly the `.json` entries of the (flat) directory listing, applies
`load_json_file` to each in directory-listing order, and — when every such
file is a well-formed event array and at least one exists — completes with the
aggregate totals equal to the sums of the per-file tallies. -/
theorem load_all_sums_in_listing_order (fromiso : String → Option Nat)
    (accepts : Row → Bool) (listing : List (String × Option JValue))
    (hwf : ∀ p ∈ listing, endswith p.1 ".json" = true →
      ∃ xs, p.2 = some (JValue.arr xs)) :
    (load_all_events fromiso accepts true listing).aborted = none ∧
    (load_all_events fromiso accepts true listing).perFile.map Prod.fst =
      (listing.filter (fun p => endswith p.1 ".json")).map Prod.fst ∧
    (listing.filter (fun p => endswith p.1 ".json") ≠ [] →
      (load_all_events fromiso accepts true listing).totals =
        some (((load_all_events fromiso accepts true listing).perFile.map
                (fun q => q.2.1)).sum,
              ((load_all_events fromiso accepts true listing).perFile.map
                (fun q => q.2.2)).sum)) := by
  cases hjf : listing.filter (fun q => endswith q.1 ".json") with
  | nil =>
    have hres : load_all_events fromiso accepts true listing =
        { aborted := none, totals := none, perFile := []
          trace := [Action.connect, Action.closeConn] } := by
      simp [load_all_events, hjf]
    rw [hres]
    exact ⟨rfl, rfl, fun hne => absurd rfl hne⟩
  | cons f rest =>
    have hwff : ∀ p ∈ f :: rest, ∃ xs, p.2 = some (JValue.arr xs) := by
      intro p hp
      have hpl : p ∈ listing.filter (fun q => endswith q.1 ".json") := by
        rw [hjf]
        exact hp
      have hend := List.of_mem_filter hpl
      exact hwf p (List.mem_of_mem_filter hpl) hend
    obtain ⟨pf, tr, hloop, hnames⟩ := loadFilesLoop_wf fromiso accepts
      (f :: rest) hwff
    have hres : load_all_events fromiso accepts true listing =
        { aborted := none
          totals := some ((pf.map (fun q => q.2.1)).sum,
                          (pf.map (fun q => q.2.2)).sum)
          perFile := pf
          trace := (Action.connect :: tr) ++ [Action.closeConn] } := by
      simp [load_all_events, hjf, hloop]
    rw [hres]
    exact ⟨rfl, hnames, fun _ => rfl⟩

/-- Witness for the amended C8 at a one-file listing. -/
theorem load_all_sums_witness :
    (load_all_events (fun _ => some 0) (fun _ => true) true
        [("a.json", some (.arr []))]).aborted = none :=
  (load_all_sums_in_listing_order (fun _ => some 0) (fun _ => true)
    [("a.json", some (.arr []))]
    (fun p hp _ => by
      rw [List.mem_singleton] at hp
      subst hp
      exact ⟨[], rfl⟩)).1

end ECommerce
